import Mathlib

/-!
Verification of the BQ28Z610 driver block-protocol core.

The definitions below are a shallow embedding of the C++ sources:
`utils.cpp` (size gates, checksum, frame validation, byte composition),
`alt_manufacturer_access.cpp` (block-read frame processing) and
`data_flash_access.cpp` (data-flash write path), with the protocol
constants of `globals.h` / `data_flash_access.h`.

Machine integers are modelled as `Nat` (or `Int` where the C type is a
signed `int`), with explicit `% 256`, `% 65536`, `% 2^32` truncations at
the points where the C code assigns to `byte` / `word` / `u32` variables.
Byte arrays are `List Nat`; an element read `buf[i]` becomes
`buf.getD i 0` (reads the C code performs out of bounds are undefined
behaviour; the theorems below restrict to in-bounds inputs).
-/

namespace BQ28Z610

/-! ### Protocol constants (globals.h, data_flash_access.h) -/

namespace BlockProtocol

/-- globals.h: maximum number of bytes obtainable per single request. -/
def REQUEST_MAX_SIZE : Nat := 32

/-- globals.h: maximum number of data bytes per function call. -/
def PAYLOAD_MAX_SIZE : Nat := REQUEST_MAX_SIZE

/-- globals.h: number of bytes for the address. -/
def ADDR_SIZE : Nat := 2

/-- globals.h: number of bytes for the checksum. -/
def CHECKSUM_SIZE : Nat := 1

/-- globals.h: number of bytes for the length. -/
def LENGTH_SIZE : Nat := 1

/-- globals.h: number of service bytes (address, checksum, length). -/
def SERVICE_SIZE : Nat := ADDR_SIZE + CHECKSUM_SIZE + LENGTH_SIZE

/-- globals.h: index of the byte from which data starts. -/
def DATA_INDEX : Nat := 2

/-- globals.h: index of the checksum byte of a response frame. -/
def CHECKSUM_INDEX : Nat := 34

/-- globals.h: index of the total-length byte of a response frame. -/
def LENGTH_INDEX : Nat := 35

/-- globals.h: maximum size of the full response in bytes. -/
def RESPONSE_MAX_SIZE : Nat := 36

end BlockProtocol

namespace StdCommands

/-- globals.h: 0x3E AltManufacturerAccess register. -/
def ALT_MANUFACTURER_ACCESS : Nat := 0x3E

/-- globals.h: 0x60 MACDataChecksum register. -/
def MAC_DATA_CHECKSUM : Nat := 0x60

end StdCommands

namespace DF_ADDR

/-- data_flash_access.h: minimum data-flash address. -/
def MIN : Nat := 0x4000

/-- data_flash_access.h: maximum data-flash address. -/
def MAX : Nat := 0x5FFF

end DF_ADDR

namespace SecurityMode

/-- globals.h SecurityMode::FULL_ACCESS. -/
def FULL_ACCESS : Nat := 1

/-- globals.h SecurityMode::UNSEALED. -/
def UNSEALED : Nat := 2

/-- globals.h SecurityMode::SEALED. -/
def SEALED : Nat := 3

end SecurityMode

namespace AltManufacturerCommands

/-- globals.h AltManufacturerCommands::OPERATION_STATUS subcommand. -/
def OPERATION_STATUS : Nat := 0x0054

end AltManufacturerCommands

namespace OperationStatusFlags

/-- flags.h OperationStatusFlags::SEC0: bit 8 of OperationStatus
([SEC1 SEC0] are bits 9-8). -/
def SEC0_n : Nat := 8

end OperationStatusFlags

/-! ### utils.cpp -/

/-- utils.cpp `_isRequestMinAllowed`: the requested length (a C `int`)
must be greater than 0. -/
def _isRequestMinAllowed (len : Int) : Bool :=
  decide (len > 0)

/-- utils.cpp `isAllowedRequestPayloadSize`: `len > 0` and
`len <= BlockProtocol::PAYLOAD_MAX_SIZE`. -/
def isAllowedRequestPayloadSize (len : Int) : Bool :=
  if !_isRequestMinAllowed len then false
  else decide (len ≤ (BlockProtocol.PAYLOAD_MAX_SIZE : Int))

/-- utils.cpp `checksum`, the running sum:
`byte sum = 0; for (int i = 0; i < len; i++) sum += data[i];`.
The accumulator is a C `byte`, hence `% 256` at every addition. -/
def sum8 (data : List Nat) (len : Nat) : Nat :=
  (List.range len).foldl (fun s i => (s + data.getD i 0) % 256) 0

/-- utils.cpp `checksum`: the bitwise inversion `~sum` of the 8-bit
running sum, truncated to a byte on return (`x ^^^ 255` is `~x & 0xFF`
for `x < 256`). -/
def checksum (data : List Nat) (len : Nat) : Nat :=
  sum8 data len ^^^ 255

/-- utils.cpp `validate`:
`byte sum = data[34]; const byte len = data[35];
for (int i = 0; i < len - 2; i++) sum += data[i];
return (sum & 0xFF);`.
Byte-typed variables are modelled with `% 256` at each assignment and
addition.  The loop bound `len - 2` is computed in `int`; it is
nonpositive (no iterations) exactly when the Nat subtraction is zero. -/
def validate (data : List Nat) : Bool :=
  let sum0 := data.getD BlockProtocol.CHECKSUM_INDEX 0 % 256
  let len := data.getD BlockProtocol.LENGTH_INDEX 0 % 256
  let sum := (List.range (len - 2)).foldl (fun s i => (s + data.getD i 0) % 256) sum0
  (sum &&& 255) != 0

/-- utils.cpp `composeWord`:
`const int msbIndex = lsbIndex + (littleEndian ? 1 : -1);
if (msbIndex < 0) return 0;
return (buf[msbIndex] << 8) | buf[lsbIndex];`.
The return type is a 16-bit `word`, hence the `% 65536` truncation. -/
def composeWord (buf : List Nat) (lsbIndex : Int) (littleEndian : Bool) : Nat :=
  let msbIndex : Int := lsbIndex + (if littleEndian then 1 else -1)
  if msbIndex < 0 then 0
  else ((buf.getD msbIndex.toNat 0 <<< 8) ||| buf.getD lsbIndex.toNat 0) % 65536

/-- utils.cpp `composeValue`: the guard `till <= from` makes the C code
return without a value (undefined), modelled as `none`; otherwise
`u32 retval = 0; for (int i = till; i >= from; i--) { retval = retval << 8; retval |= buf[i]; }`.
The accumulator is a `u32`, hence `% 2^32` at the shift; fold step `k`
is the loop iteration `i = till - k`. -/
def composeValue (buf : List Nat) (fromIdx till : Nat) : Option Nat :=
  if till ≤ fromIdx then none
  else some ((List.range (till + 1 - fromIdx)).foldl
    (fun r k => ((r <<< 8) % 4294967296) ||| buf.getD (till - k) 0) 0)

/-- utils.cpp `composeDoubleWord`: `composeValue(buf, 0, 3)`. -/
def composeDoubleWord (buf : List Nat) : Option Nat :=
  composeValue buf 0 3

/-- Little-endian interpretation of `n` bytes of `buf` starting at index
`lo`, first byte least significant.  This is the specification-side
reading of an inclusive byte range, for comparison with `composeValue`. -/
def leValue (buf : List Nat) (lo : Nat) : Nat → Nat
  | 0 => 0
  | n + 1 => buf.getD lo 0 + 256 * leValue buf (lo + 1) n

/-! ### alt_manufacturer_access.cpp -/

/-- alt_manufacturer_access.cpp `AltManufacturerAccess(MACSubcmd, retval, len)`,
from the point where the 36-byte response frame has been received (the
I2C exchange that produced the frame — two `sendCommand`s and
`requestBlock` — is the bus environment; the received frame is the
parameter here).  Returns the triple
(returned `bool`, final contents of `retval`, final contents of `*len`).
On a valid frame the C code computes `int _len = buf[35] - 4`; the copy
loop runs `max(_len, 0)` times, which is the Nat subtraction, and the
`byte` assignment `*len = _len` wraps mod 256, i.e. `(buf[35] + 252) % 256`.
A `retval` store out of bounds (C undefined behaviour) is modelled by
`List.set`, which leaves the list unchanged. -/
def AltManufacturerAccess (frame : List Nat) (retval : List Nat) (len : Nat) :
    Bool × List Nat × Nat :=
  if validate frame then
    let _len := frame.getD BlockProtocol.LENGTH_INDEX 0 % 256 - BlockProtocol.SERVICE_SIZE
    let retval' := (List.range _len).foldl
      (fun r i => r.set i (frame.getD (BlockProtocol.DATA_INDEX + i) 0)) retval
    (true, retval', (frame.getD BlockProtocol.LENGTH_INDEX 0 % 256 + 252) % 256)
  else (false, retval, len)

/-! ### data_flash_access.cpp -/

/-- One I2C write transaction issued through utils.cpp `sendData`:
`Wire.beginTransmission(DEVICE_ADDR); Wire.write(reg); Wire.write(data, len); Wire.endTransmission();`. -/
structure BusWrite where
  reg : Nat
  data : List Nat
  deriving DecidableEq

/-- data_flash_access.cpp `_isAddrValid`:
`DF_ADDR::MIN <= addr && addr <= DF_ADDR::MAX`. -/
def _isAddrValid (addr : Nat) : Bool :=
  decide (DF_ADDR.MIN ≤ addr) && decide (addr ≤ DF_ADDR.MAX)

/-- utils.cpp `sendCommand(byte reg, word command)`: one I2C write of the
register byte followed by the command word little-endian
(`buf = { command & 0xFF, (command >> 8) & 0xFF }`). -/
def sendCommandWrite (reg command : Nat) : BusWrite :=
  ⟨reg, [command % 256, (command / 256) % 256]⟩

/-- utils.cpp `sendCommand(byte command)`: one bare I2C write transaction
selecting a register, with no payload bytes. -/
def sendCommandSelect (command : Nat) : BusWrite :=
  ⟨command, []⟩

/-- alt_manufacturer_access.cpp `AltManufacturerAccess(MACSubcmd, retval, len)`:
the I2C write transactions of the block-read exchange — the subcommand
write to 0x3E, then the bare register select of 0x3E before the block
read (the three `requestBlock` transfers are read requests, not writes). -/
def AltManufacturerAccessWrites (MACSubcmd : Nat) : List BusWrite :=
  [sendCommandWrite StdCommands.ALT_MANUFACTURER_ACCESS MACSubcmd,
   sendCommandSelect StdCommands.ALT_MANUFACTURER_ACCESS]

/-- alt_manufacturer_access.cpp `OperationStatus()`, as a function of the
36-byte frame the device returns for the 0x0054 block read:
`byte buf[36], len = 0; memset(buf, 0, 36);
if (!AltManufacturerAccess(OPERATION_STATUS, buf, &len)) return;
return composeDoubleWord(buf);`.
The guarded `return;` falls off a `u32` function without a value
(undefined), modelled as `none`. -/
def OperationStatus (devFrame : List Nat) : Option Nat :=
  if (AltManufacturerAccess devFrame (List.replicate 36 0) 0).1 then
    composeDoubleWord (AltManufacturerAccess devFrame (List.replicate 36 0) 0).2.1
  else none

/-- service.cpp `securityMode()`:
`(operationStatus >> OperationStatusFlags::SEC0().n) & 0b11` with
`SEC0().n = 8` (flags.h), as a function of the device's response frame to
the OperationStatus query.  `none` propagates the undefined value of a
failed `OperationStatus()` read. -/
def securityMode (devFrame : List Nat) : Option Nat :=
  (OperationStatus devFrame).map (fun s => (s >>> OperationStatusFlags.SEC0_n) &&& 0b11)

/-- data_flash_access.cpp `_isDeviceSealed`:
`SecurityMode::SEALED == securityMode()` (the SILENCE juggling around it
is print-only). -/
def _isDeviceSealed (devFrame : List Nat) : Option Bool :=
  (securityMode devFrame).map (fun m => decide (SecurityMode.SEALED = m))

/-- data_flash_access.cpp `dfWriteBytes(addr, data, len)`, modelled as the
trace of I2C write transactions the call issues.  The guard is
`if (!_isAddrValid(addr) || !isAllowedRequestPayloadSize(len) || _isDeviceSealed()) return;`
with C short-circuit evaluation: when the address or length gate fails,
`_isDeviceSealed()` is never called and no bus traffic at all occurs;
when both pure gates pass, `_isDeviceSealed()` queries the device's
OperationStatus over the bus (two write transactions plus read requests),
deciding the sealed bit from the response frame `devFrame`; a response
that fails validation makes the sealed test read an undefined value
(`none`).  On the unsealed path the write body follows:
`buf = [addr & 0xFF, (addr >> 8) & 0xFF, data[0..len)]` is sent to
register 0x3E, then `[checksum(buf, sizeof(buf)), len + 4]` to register
0x60 (`_length` is a C `byte`, hence `% 256`). -/
def dfWriteBytes (devFrame : List Nat) (addr : Nat) (data : List Nat) (len : Int) :
    Option (List BusWrite) :=
  if !_isAddrValid addr || !isAllowedRequestPayloadSize len then some []
  else
    match _isDeviceSealed devFrame with
    | none => none
    | some sealed =>
      let query := AltManufacturerAccessWrites AltManufacturerCommands.OPERATION_STATUS
      if sealed then some query
      else
        let n := len.toNat
        let buf := [addr % 256, (addr / 256) % 256] ++ (List.range n).map (fun i => data.getD i 0)
        let _checksum := checksum buf buf.length
        let _length := (n + BlockProtocol.SERVICE_SIZE) % 256
        some (query ++
          [⟨StdCommands.ALT_MANUFACTURER_ACCESS, buf⟩,
           ⟨StdCommands.MAC_DATA_CHECKSUM, [_checksum, _length]⟩])

/-- Concrete 36-byte OperationStatus response frame of an UNSEALED device:
subcommand echo `[0x54, 0x00]`, status payload `0x00000200` little-endian
(security bits [SEC1 SEC0] = bits 9-8 = `10`, i.e. Unsealed), correct
checksum `0xA9 = ~(0x54 + 0x02)`, total length `8 = 4 + 4`. -/
def unsealedFrame : List Nat :=
  [0x54, 0x00, 0x00, 0x02, 0x00, 0x00] ++ List.replicate 28 0 ++ [0xA9, 8]

/-- Concrete 36-byte response frame used to exercise the block-read path:
the device-type response `[0x01, 0x00, 0x10, 0x26, 0 … 0, checksum, length 6]`
with the correct checksum `0xC8 = ~(0x01 + 0x00 + 0x10 + 0x26)`. -/
def exFrame : List Nat :=
  [0x01, 0x00, 0x10, 0x26] ++ List.replicate 30 0 ++ [0xC8, 6]

end BQ28Z610

/-! ### Helper lemmas -/

namespace BQ28Z610

/-- An 8-bit running sum stays below 256. -/
theorem foldl_byte_sum_lt (g : Nat → Nat) (s0 : Nat) (h : s0 < 256) (n : Nat) :
    (List.range n).foldl (fun s i => (s + g i) % 256) s0 < 256 := by
  induction n with
  | zero => simpa using h
  | succ n ih =>
    rw [List.range_succ, List.foldl_append]
    simp only [List.foldl_cons, List.foldl_nil]
    exact Nat.mod_lt _ (by omega)

/-- Truncating the sum at each step is the same as truncating at the end. -/
theorem foldl_byte_sum_eq_mod (g : Nat → Nat) (s0 n : Nat) :
    (List.range n).foldl (fun s i => (s + g i) % 256) (s0 % 256)
      = ((List.range n).foldl (fun s i => s + g i) s0) % 256 := by
  induction n with
  | zero => simp
  | succ n ih =>
    rw [List.range_succ, List.foldl_append, List.foldl_append]
    simp only [List.foldl_cons, List.foldl_nil]
    rw [ih, Nat.mod_add_mod]

/-- The starting value of an untruncated running sum factors out. -/
theorem foldl_add_init (g : Nat → Nat) (s0 n : Nat) :
    (List.range n).foldl (fun s i => s + g i) s0
      = s0 + (List.range n).foldl (fun s i => s + g i) 0 := by
  induction n with
  | zero => simp
  | succ n ih =>
    rw [List.range_succ, List.foldl_append, List.foldl_append]
    simp only [List.foldl_cons, List.foldl_nil]
    omega

set_option maxRecDepth 4096 in
/-- For a byte, xor with 255 is complement. -/
theorem xor255_eq : ∀ x : Nat, x < 256 → x ^^^ 255 = 255 - x := by decide

/-- Masking with 0xFF is reduction mod 256. -/
theorem and255_eq_mod (x : Nat) : x &&& 255 = x % 256 := by
  have h := Nat.and_pow_two_sub_one_eq_mod x 8
  norm_num at h
  exact h

/-- Bitwise or with a byte is addition when the low byte is clear. -/
theorem or_eq_add_of_mod256 (a b : Nat) (ha : a % 256 = 0) (hb : b < 256) :
    a ||| b = a + b := by
  have hb' : b < 2 ^ 8 := by simpa using hb
  have h := Nat.mul_add_lt_is_or hb' (a / 256)
  norm_num at h
  have ha' : 256 * (a / 256) = a := by omega
  rw [ha'] at h
  exact h.symm

/-- Every defaulted read of an all-bytes list is a byte. -/
theorem getD_lt_256 (buf : List Nat) (hb : ∀ b ∈ buf, b < 256) (i : Nat) :
    buf.getD i 0 < 256 := by
  rcases Nat.lt_or_ge i buf.length with h | h
  · rw [List.getD_eq_getElem?_getD, List.getElem?_eq_getElem h]
    exact hb _ (List.getElem_mem h)
  · rw [List.getD_eq_getElem?_getD, List.getElem?_eq_none h]
    simp

/-- The write loop of the block-read copy preserves the buffer length. -/
theorem foldl_set_length (g : Nat → Nat) (r0 : List Nat) (n : Nat) :
    ((List.range n).foldl (fun r i => r.set i (g i)) r0).length = r0.length := by
  induction n with
  | zero => simp
  | succ n ih =>
    rw [List.range_succ, List.foldl_append]
    simp only [List.foldl_cons, List.foldl_nil, List.length_set]
    exact ih

/-- Positions at or past the write count are untouched by the copy loop. -/
theorem foldl_set_getD_of_le (g : Nat → Nat) (r0 : List Nat) (n i : Nat) (h : n ≤ i) :
    ((List.range n).foldl (fun r j => r.set j (g j)) r0).getD i 0 = r0.getD i 0 := by
  induction n with
  | zero => simp
  | succ n ih =>
    rw [List.range_succ, List.foldl_append]
    simp only [List.foldl_cons, List.foldl_nil]
    rw [List.getD_eq_getElem?_getD, List.getElem?_set_ne (by omega),
      ← List.getD_eq_getElem?_getD]
    exact ih (by omega)

/-- Positions below the write count hold the copied values. -/
theorem foldl_set_getD_of_lt (g : Nat → Nat) (r0 : List Nat) (n i : Nat)
    (h1 : i < n) (h2 : i < r0.length) :
    ((List.range n).foldl (fun r j => r.set j (g j)) r0).getD i 0 = g i := by
  induction n with
  | zero => omega
  | succ n ih =>
    rw [List.range_succ, List.foldl_append]
    simp only [List.foldl_cons, List.foldl_nil]
    rcases Nat.lt_or_ge i n with h | h
    · rw [List.getD_eq_getElem?_getD, List.getElem?_set_ne (by omega),
        ← List.getD_eq_getElem?_getD]
      exact ih h
    · have hin : i = n := by omega
      subst hin
      rw [List.getD_eq_getElem?_getD, List.getElem?_set_self (by rw [foldl_set_length]; exact h2)]
      simp

end BQ28Z610

namespace BQ28Z610

/-- Characterisation of `validate` on byte frames: valid iff the 8-bit sum of
the checksum byte and the first `length - 2` bytes is non-zero. -/
theorem validate_iff_sum (data : List Nat) (hb : ∀ b ∈ data, b < 256) :
    (validate data = true ↔
      ((List.range (data.getD 35 0 - 2)).foldl (fun s i => s + data.getD i 0)
        (data.getD 34 0)) % 256 ≠ 0) := by
  have h35 : data.getD 35 0 < 256 := getD_lt_256 data hb 35
  simp only [validate, BlockProtocol.CHECKSUM_INDEX, BlockProtocol.LENGTH_INDEX]
  rw [Nat.mod_eq_of_lt h35]
  rw [foldl_byte_sum_eq_mod (fun i => data.getD i 0) (data.getD 34 0) (data.getD 35 0 - 2)]
  rw [and255_eq_mod]
  simp only [bne_iff_ne, ne_eq]
  omega

/-- The descending shift-or loop of `composeValue` computes the little-endian
value of the byte window, truncated to 32 bits. -/
theorem composeValue_fold (buf : List Nat) (hb : ∀ b ∈ buf, b < 256) :
    ∀ (n t : Nat), n ≤ t →
      (List.range (n + 1)).foldl
        (fun r k => ((r <<< 8) % 4294967296) ||| buf.getD (t - k) 0) 0
        = leValue buf (t - n) (n + 1) % 4294967296 := by
  intro n
  induction n with
  | zero =>
    intro t _
    rw [List.range_succ]
    simp only [List.range_zero, List.nil_append, List.foldl_cons, List.foldl_nil, Nat.sub_zero]
    rw [Nat.zero_shiftLeft]
    simp only [Nat.zero_mod, Nat.zero_or]
    have h1 : leValue buf t 1 = buf.getD t 0 + 256 * leValue buf (t + 1) 0 := rfl
    have h0 : leValue buf (t + 1) 0 = 0 := rfl
    have hbt := getD_lt_256 buf hb t
    rw [h1, h0]
    omega
  | succ n ih =>
    intro t ht
    rw [List.range_succ, List.foldl_append]
    rw [ih t (by omega)]
    simp only [List.foldl_cons, List.foldl_nil]
    have hbt := getD_lt_256 buf hb (t - (n + 1))
    rw [Nat.shiftLeft_eq]
    have e28 : (2 : Nat) ^ 8 = 256 := by norm_num
    rw [e28, Nat.mod_mul_mod]
    rw [or_eq_add_of_mod256 _ _ (by omega) hbt]
    have hRHS : leValue buf (t - (n + 1)) (n + 1 + 1)
        = buf.getD (t - (n + 1)) 0 + 256 * leValue buf (t - (n + 1) + 1) (n + 1) := rfl
    have hlo : t - (n + 1) + 1 = t - n := by omega
    rw [hRHS, hlo]
    omega

end BQ28Z610

/-! ### Claim theorems -/

namespace BQ28Z610

/-- Claim C1, counterexample: with an unsealed device (a valid
OperationStatus response frame showing security mode Unsealed) and all
gates passing, the write trace of `dfWriteBytes 0x462A [0x64, 0x00]` is
NOT the claimed two-write sequence: the sealed gate's own query writes
precede the data-flash write pair. -/
theorem dfWriteBytes_two_writes_counterexample :
    dfWriteBytes unsealedFrame 0x462A [0x64, 0x00] 2 ≠
      some [⟨StdCommands.ALT_MANUFACTURER_ACCESS, [0x2A, 0x46, 0x64, 0x00]⟩,
            ⟨StdCommands.MAC_DATA_CHECKSUM, [checksum [0x2A, 0x46, 0x64, 0x00] 4, 0x06]⟩] := by
  decide

/-- Claim C1 (amended): a data-flash write of the 2 payload bytes
`[0x64, 0x00]` to address `0x462A`, with the device not sealed and all
gates passing, produces exactly four bus writes, in order: the sealed
gate's OperationStatus query — register 0x3E with the subcommand bytes
`[0x54, 0x00]`, then the bare register select of 0x3E — followed by
register 0x3E with `[0x2A, 0x46, 0x64, 0x00]` (address little-endian
then payload) and register 0x60 with
`[checksum of that buffer, 0x06]`, where `0x06 = 2 + 4` service bytes. -/
theorem dfWriteBytes_write_trace (devFrame : List Nat)
    (h : _isDeviceSealed devFrame = some false) :
    dfWriteBytes devFrame 0x462A [0x64, 0x00] 2 =
      some [⟨StdCommands.ALT_MANUFACTURER_ACCESS, [0x54, 0x00]⟩,
            ⟨StdCommands.ALT_MANUFACTURER_ACCESS, []⟩,
            ⟨StdCommands.ALT_MANUFACTURER_ACCESS, [0x2A, 0x46, 0x64, 0x00]⟩,
            ⟨StdCommands.MAC_DATA_CHECKSUM, [checksum [0x2A, 0x46, 0x64, 0x00] 4, 0x06]⟩] := by
  have hg : (!_isAddrValid 0x462A || !isAllowedRequestPayloadSize 2) = false := by decide
  unfold dfWriteBytes
  rw [hg, h]
  decide

/-- Witness for the amended C1 at the concrete unsealed-device frame. -/
theorem dfWriteBytes_write_trace_witness :
    dfWriteBytes unsealedFrame 0x462A [0x64, 0x00] 2 =
      some [⟨StdCommands.ALT_MANUFACTURER_ACCESS, [0x54, 0x00]⟩,
            ⟨StdCommands.ALT_MANUFACTURER_ACCESS, []⟩,
            ⟨StdCommands.ALT_MANUFACTURER_ACCESS, [0x2A, 0x46, 0x64, 0x00]⟩,
            ⟨StdCommands.MAC_DATA_CHECKSUM, [checksum [0x2A, 0x46, 0x64, 0x00] 4, 0x06]⟩] :=
  dfWriteBytes_write_trace unsealedFrame (by decide)

/-- Claim C2: every requested payload length `len ≤ 0` or `len > 32` is
rejected by `isAllowedRequestPayloadSize`, and `dfWriteBytes` returns
with zero bus writes — the short-circuited guard never reaches the
sealed gate, whatever the device state. -/
theorem dfWriteBytes_rejects_bad_len (devFrame : List Nat) (addr : Nat) (data : List Nat)
    (len : Int) (h : len ≤ 0 ∨ 32 < len) :
    isAllowedRequestPayloadSize len = false ∧ dfWriteBytes devFrame addr data len = some [] := by
  have hp : isAllowedRequestPayloadSize len = false := by
    unfold isAllowedRequestPayloadSize _isRequestMinAllowed
    rcases h with h | h
    · have h0 : decide (len > 0) = false := decide_eq_false (by omega)
      simp [h0]
    · have h1 : decide (len ≤ (BlockProtocol.PAYLOAD_MAX_SIZE : Int)) = false := by
        apply decide_eq_false
        simp only [BlockProtocol.PAYLOAD_MAX_SIZE, BlockProtocol.REQUEST_MAX_SIZE]
        push_cast
        omega
      simp [h1]
  refine ⟨hp, ?_⟩
  simp [dfWriteBytes, hp]

/-- Witness for C2 at the concrete rejected lengths 0 and 33 (against the
all-zero device frame: the device is never consulted). -/
theorem dfWriteBytes_rejects_bad_len_witness :
    (isAllowedRequestPayloadSize 0 = false ∧
      dfWriteBytes (List.replicate 36 0) 0x462A [0x64, 0x00] 0 = some []) ∧
    (isAllowedRequestPayloadSize 33 = false ∧
      dfWriteBytes (List.replicate 36 0) 0x462A [0x64, 0x00] 33 = some []) :=
  ⟨dfWriteBytes_rejects_bad_len (List.replicate 36 0) 0x462A [0x64, 0x00] 0 (Or.inl (by decide)),
   dfWriteBytes_rejects_bad_len (List.replicate 36 0) 0x462A [0x64, 0x00] 33 (Or.inr (by decide))⟩

/-- Claim C3: a 36-byte frame validates iff the 8-bit sum of the checksum
byte `frame[34]` and the bytes `frame[0 .. len-2)` with `len = frame[35]`
is non-zero; the all-zero frame fails; a frame whose checksum byte is the
complement of the 8-bit sum of the summed range validates. -/
theorem validate_correct :
    (∀ data : List Nat, data.length = 36 → (∀ b ∈ data, b < 256) →
      (validate data = true ↔
        ((List.range (data.getD 35 0 - 2)).foldl (fun s i => s + data.getD i 0)
          (data.getD 34 0)) % 256 ≠ 0))
    ∧ validate (List.replicate 36 0) = false
    ∧ (∀ data : List Nat, data.length = 36 → (∀ b ∈ data, b < 256) →
        data.getD 34 0 =
          ((List.range (data.getD 35 0 - 2)).foldl (fun s i => s + data.getD i 0) 0) % 256 ^^^ 255 →
        validate data = true) := by
  refine ⟨fun data _ hb => validate_iff_sum data hb, by decide, fun data _ hb hc => ?_⟩
  rw [validate_iff_sum data hb]
  rw [foldl_add_init (fun i => data.getD i 0) (data.getD 34 0) (data.getD 35 0 - 2)]
  rw [xor255_eq _ (Nat.mod_lt _ (by omega))] at hc
  omega

/-- Witness for C3 at the all-zero 36-byte frame. -/
theorem validate_correct_witness :
    validate (List.replicate 36 0) = true ↔
      ((List.range ((List.replicate 36 0).getD 35 0 - 2)).foldl
        (fun s i => s + (List.replicate 36 0).getD i 0)
        ((List.replicate 36 0).getD 34 0)) % 256 ≠ 0 :=
  validate_correct.1 (List.replicate 36 0) (by decide) (by decide)

/-- Claim C4: `checksum` returns the bitwise complement of the 8-bit
truncated sum: the sum of the data bytes and the checksum masked to a
byte is 0xFF. -/
theorem checksum_complement (data : List Nat) (len : Nat) :
    (((List.range len).foldl (fun s i => s + data.getD i 0) 0 + checksum data len) &&& 255)
      = 255 := by
  have hlt : sum8 data len < 256 := foldl_byte_sum_lt (fun i => data.getD i 0) 0 (by omega) len
  have hmod : sum8 data len
      = ((List.range len).foldl (fun s i => s + data.getD i 0) 0) % 256 := by
    have h := foldl_byte_sum_eq_mod (fun i => data.getD i 0) 0 len
    simpa [sum8] using h
  rw [and255_eq_mod, checksum, xor255_eq _ hlt]
  omega

/-- Claim C10: the checksum of an empty range is 0xFF, whatever the
buffer contents. -/
theorem checksum_len_zero (data : List Nat) : checksum data 0 = 0xFF := by
  simp [checksum, sum8]

/-- Claim C6: when the received frame fails validation,
`AltManufacturerAccess` returns false and leaves the caller's output
buffer and output length completely unmodified. -/
theorem AltManufacturerAccess_invalid (frame retval : List Nat) (len : Nat)
    (hv : validate frame = false) :
    AltManufacturerAccess frame retval len = (false, retval, len) := by
  simp [AltManufacturerAccess, hv]

/-- Witness for C6 at the all-zero frame (sealed-device response). -/
theorem AltManufacturerAccess_invalid_witness :
    AltManufacturerAccess (List.replicate 36 0) (List.replicate 32 7) 5
      = (false, List.replicate 32 7, 5) :=
  AltManufacturerAccess_invalid (List.replicate 36 0) (List.replicate 32 7) 5 (by decide)

end BQ28Z610

namespace BQ28Z610

/-- Evaluation of `composeWord` when the adjacent index is non-negative. -/
theorem composeWord_pos (buf : List Nat) (lsbIndex : Int) (littleEndian : Bool)
    (h : 0 ≤ lsbIndex + (if littleEndian then 1 else -1)) :
    composeWord buf lsbIndex littleEndian
      = ((buf.getD (lsbIndex + (if littleEndian then 1 else -1)).toNat 0 <<< 8)
          ||| buf.getD lsbIndex.toNat 0) % 65536 := by
  simp only [composeWord]
  rw [if_neg (by omega)]

/-- Evaluation of `composeWord` when the adjacent index is negative. -/
theorem composeWord_neg (buf : List Nat) (lsbIndex : Int) (littleEndian : Bool)
    (h : lsbIndex + (if littleEndian then 1 else -1) < 0) :
    composeWord buf lsbIndex littleEndian = 0 := by
  simp only [composeWord]
  rw [if_pos h]

/-- Claim C5: when the received frame passes validation,
`AltManufacturerAccess` returns true, sets the output length to
`frame[35] - 4` (4 service bytes), and copies exactly the bytes
`frame[2 .. 2 + length)` into the caller's buffer in order, leaving the
positions past the copied range untouched. -/
theorem AltManufacturerAccess_success (frame retval : List Nat) (len : Nat)
    (hlen : frame.length = 36) (hv : validate frame = true)
    (h4 : 4 ≤ frame.getD 35 0) (h36 : frame.getD 35 0 ≤ 36)
    (hr : frame.getD 35 0 - 4 ≤ retval.length) :
    (AltManufacturerAccess frame retval len).1 = true ∧
    (AltManufacturerAccess frame retval len).2.2 = frame.getD 35 0 - 4 ∧
    (∀ i, i < frame.getD 35 0 - 4 →
      (AltManufacturerAccess frame retval len).2.1.getD i 0 = frame.getD (2 + i) 0) ∧
    (∀ i, frame.getD 35 0 - 4 ≤ i →
      (AltManufacturerAccess frame retval len).2.1.getD i 0 = retval.getD i 0) := by
  have hm : frame.getD 35 0 % 256 = frame.getD 35 0 := Nat.mod_eq_of_lt (by omega)
  simp only [AltManufacturerAccess, hv, if_true, BlockProtocol.LENGTH_INDEX,
    BlockProtocol.SERVICE_SIZE, BlockProtocol.ADDR_SIZE, BlockProtocol.CHECKSUM_SIZE,
    BlockProtocol.LENGTH_SIZE, BlockProtocol.DATA_INDEX, hm]
  refine ⟨trivial, by omega, fun i hi => ?_, fun i hi => ?_⟩
  · exact foldl_set_getD_of_lt (fun j => frame.getD (2 + j) 0) retval _ i hi (by omega)
  · exact foldl_set_getD_of_le (fun j => frame.getD (2 + j) 0) retval _ i hi

/-- Witness for C5 at the concrete device-type frame. -/
theorem AltManufacturerAccess_success_witness :
    (AltManufacturerAccess exFrame (List.replicate 32 0) 0).1 = true ∧
    (AltManufacturerAccess exFrame (List.replicate 32 0) 0).2.2 = exFrame.getD 35 0 - 4 ∧
    (∀ i, i < exFrame.getD 35 0 - 4 →
      (AltManufacturerAccess exFrame (List.replicate 32 0) 0).2.1.getD i 0
        = exFrame.getD (2 + i) 0) ∧
    (∀ i, exFrame.getD 35 0 - 4 ≤ i →
      (AltManufacturerAccess exFrame (List.replicate 32 0) 0).2.1.getD i 0
        = (List.replicate 32 0).getD i 0) :=
  AltManufacturerAccess_success exFrame (List.replicate 32 0) 0 (by decide) (by decide)
    (by decide) (by decide) (by decide)

/-- Claim C7: for in-bounds indices `fromIdx < till`, `composeValue`
composes the inclusive byte range little-endian (byte at `fromIdx` least
significant) into an unsigned 32-bit value; in particular on
`[0x11, 0x22, 0x33, 0x44]` over `[0, 3]` it yields `0x44332211`. -/
theorem composeValue_littleEndian :
    (∀ (buf : List Nat) (fromIdx till : Nat), fromIdx < till → till < buf.length →
      (∀ b ∈ buf, b < 256) →
      composeValue buf fromIdx till
        = some (leValue buf fromIdx (till + 1 - fromIdx) % 4294967296))
    ∧ composeValue [0x11, 0x22, 0x33, 0x44] 0 3 = some 0x44332211 := by
  constructor
  · intro buf fromIdx till h1 _ hb
    rw [composeValue, if_neg (by omega)]
    have hn : till + 1 - fromIdx = (till - fromIdx) + 1 := by omega
    rw [hn]
    rw [composeValue_fold buf hb (till - fromIdx) till (by omega)]
    have hf : till - (till - fromIdx) = fromIdx := by omega
    rw [hf]
  · decide

/-- Witness for C7 at the concrete four-byte buffer. -/
theorem composeValue_littleEndian_witness :
    composeValue [0x11, 0x22, 0x33, 0x44] 0 3
      = some (leValue [0x11, 0x22, 0x33, 0x44] 0 (3 + 1 - 0) % 4294967296) :=
  composeValue_littleEndian.1 [0x11, 0x22, 0x33, 0x44] 0 3 (by decide) (by decide) (by decide)

/-- Claim C8: storing a 16-bit value little-endian at `lsbIndex`
(`buf[lsbIndex] = v & 0xFF`, `buf[lsbIndex + 1] = v >> 8`) and decoding
with `composeWord` in little-endian mode returns the original value. -/
theorem composeWord_roundTrip (v : Nat) (buf : List Nat) (lsbIndex : Nat)
    (hv : v < 65536) (hlen : lsbIndex + 1 < buf.length) :
    composeWord ((buf.set lsbIndex (v &&& 255)).set (lsbIndex + 1) (v >>> 8))
      (lsbIndex : Int) true = v := by
  rw [composeWord_pos _ _ _ (by simp; omega)]
  have e1 : ((buf.set lsbIndex (v &&& 255)).set (lsbIndex + 1) (v >>> 8)).getD
      ((lsbIndex : Int) + (if true then 1 else -1)).toNat 0 = v >>> 8 := by
    have ht : ((lsbIndex : Int) + (if true then 1 else -1)).toNat = lsbIndex + 1 := by
      simp
    rw [ht, List.getD_eq_getElem?_getD,
      List.getElem?_set_self (by simp only [List.length_set]; omega)]
    simp
  have e2 : ((buf.set lsbIndex (v &&& 255)).set (lsbIndex + 1) (v >>> 8)).getD
      ((lsbIndex : Int)).toNat 0 = v &&& 255 := by
    have ht : ((lsbIndex : Int)).toNat = lsbIndex := by simp
    rw [ht, List.getD_eq_getElem?_getD, List.getElem?_set_ne (by omega),
      List.getElem?_set_self (by omega)]
    simp
  rw [e1, e2, and255_eq_mod, Nat.shiftLeft_eq, Nat.shiftRight_eq_div_pow]
  have e28 : (2 : Nat) ^ 8 = 256 := by norm_num
  rw [e28, or_eq_add_of_mod256 _ _ (by omega) (Nat.mod_lt _ (by omega))]
  omega

/-- Witness for C8 at `v = 0x2211`, a four-byte buffer and index 0. -/
theorem composeWord_roundTrip_witness :
    composeWord (((List.replicate 4 0).set 0 (0x2211 &&& 255)).set (0 + 1) (0x2211 >>> 8))
      ((0 : Nat) : Int) true = 0x2211 :=
  composeWord_roundTrip 0x2211 (List.replicate 4 0) 0 (by decide) (by decide)

/-- Claim C9: `composeWord` returns the sentinel 0 without reading the
buffer (i.e. uniformly in the buffer) exactly when the computed adjacent
most-significant-byte index is negative, which for a non-negative
`lsbIndex` happens exactly when `littleEndian = false` and `lsbIndex = 0`. -/
theorem composeWord_sentinel_iff (lsbIndex : Nat) (littleEndian : Bool) :
    (((lsbIndex : Int) + (if littleEndian then 1 else -1) < 0) ↔
      (littleEndian = false ∧ lsbIndex = 0))
    ∧ ((∀ buf : List Nat, composeWord buf (lsbIndex : Int) littleEndian = 0) ↔
      (littleEndian = false ∧ lsbIndex = 0)) := by
  have hiff : ((lsbIndex : Int) + (if littleEndian then 1 else -1) < 0) ↔
      (littleEndian = false ∧ lsbIndex = 0) := by
    cases littleEndian <;> simp <;> omega
  refine ⟨hiff, ?_, ?_⟩
  · intro h
    rw [← hiff]
    by_contra hc
    have h2 := h (List.replicate (lsbIndex + 2) 1)
    rw [composeWord_pos _ _ _ (by omega)] at h2
    have e1 : (List.replicate (lsbIndex + 2) 1).getD
        ((lsbIndex : Int) + (if littleEndian then 1 else -1)).toNat 0 = 1 := by
      rw [List.getD_eq_getElem?_getD, List.getElem?_replicate_of_lt (by omega)]
      simp
    have e2 : (List.replicate (lsbIndex + 2) 1).getD ((lsbIndex : Int)).toNat 0 = 1 := by
      rw [List.getD_eq_getElem?_getD, List.getElem?_replicate_of_lt (by omega)]
      simp
    rw [e1, e2] at h2
    exact absurd h2 (by decide)
  · rintro ⟨hle, h0⟩
    intro buf
    subst hle
    subst h0
    exact composeWord_neg buf ((0 : Nat) : Int) false (by decide)

end BQ28Z610
